import Mathlib

/-!
Verification of the dictyBase go-middlewares repository.

The development shallowly embeds the two middlewares the claims are about:

* `middlewares/query/query.go` — the JSON-API query-parameter middleware.
  Pure data is embedded directly; the stateful handler chain is embedded as a
  function from the request data the code consults (the query key/value pairs
  and the `Accept` / `Content-Type` headers) to an explicit result that is
  either an error response (the chain terminates, the downstream handler is
  never invoked) or a pass-through carrying the optional parameter bundle
  attached to the request context.
* the day-based cache middleware (`NewHTTPCache(day int, t time.Time)` /
  `Handler`), embedded with time as seconds since the Unix epoch (UTC) and
  `time.Time.Format(http.TimeFormat)` implemented from the civil-calendar
  algorithm.

Go map iteration order over query keys is unspecified; the embedding fixes one
admissible order by taking the query as a list of pairs processed in list
order.  The Go loop reads only the first value `v[0]` of each key, so a query
entry is embedded as the pair (key, first value).
-/

set_option autoImplicit false

namespace GoMW

/-! ## String helpers embedding the Go standard-library calls used by the code -/

/-- Character-level prefix test on lists, embedding Go `strings.HasPrefix`
(for the ASCII needles `"filter"`/`"fields"` used by the code, byte prefixes
and character prefixes of UTF-8 strings coincide). -/
def isPrefixList : List Char → List Char → Bool
  | [], _ => true
  | _ :: _, [] => false
  | c :: cs, d :: ds => c = d && isPrefixList cs ds

/-- Go `strings.HasPrefix s pre`. -/
def strStartsWith (s pre : String) : Bool :=
  isPrefixList pre.data s.data

/-- Does the string contain a comma, embedding Go `strings.Contains(s, ",")`. -/
def containsComma (s : String) : Bool :=
  s.data.any (fun c => c = ',')

/-- Split a character list at commas, keeping empty fields, embedding Go
`strings.Split(s, ",")`. The accumulator holds the current field reversed. -/
def splitCommaAux : List Char → List Char → List String
  | [], acc => [String.mk acc.reverse]
  | c :: rest, acc =>
    if c = ',' then String.mk acc.reverse :: splitCommaAux rest []
    else splitCommaAux rest (c :: acc)

/-- Go `strings.Split(s, ",")`. -/
def goSplitComma (s : String) : List String :=
  splitCommaAux s.data []

/-- The comma handling of the Go source: it tests `strings.Contains(v, ",")`
and either splits on commas or wraps the value as a one-element slice. -/
def goSplitCommaOpt (v : String) : List String :=
  if containsComma v then goSplitComma v else [v]

/-- Go `strconv.Quote` character escaping, restricted to printable ASCII
input (the only input it receives in this package is the media-type constant,
which is printable ASCII): a double quote or a backslash is backslash-escaped,
every other printable ASCII character is emitted verbatim. -/
def goQuoteChar (c : Char) : String :=
  if c = '"' then "\\\""
  else if c = '\\' then "\\\\"
  else String.singleton c

/-- Go `strconv.Quote` on a printable-ASCII string: surrounding double quotes
plus the per-character escaping of `goQuoteChar`. -/
def strconvQuote (s : String) : String :=
  "\"" ++ String.join (s.data.map goQuoteChar) ++ "\""

/-! ## Association-list operations embedding the Go map writes and reads -/

/-- Go map assignment `m[k] = v`: replace the binding if the key is present,
append it otherwise. -/
def setKey {α : Type} : List (String × α) → String → α → List (String × α)
  | [], k, v => [(k, v)]
  | (k1, v1) :: rest, k, v =>
    if k1 = k then (k, v) :: rest else (k1, v1) :: setKey rest k v

/-- Go map read `m[k]` (as an `Option`, `none` when the key is absent). -/
def getKey {α : Type} : List (String × α) → String → Option α
  | [], _ => none
  | (k1, v1) :: rest, k => if k1 = k then some v1 else getKey rest k

/-! ## The query middleware data model (query.go) -/

/-- The raw media-type string literal of query.go (the backtick raw string
passed to `strconv.Quote`). -/
def rawFilterMediaType : String :=
  "application/vnd.api+json; supported-ext=\"dictybase/filtering-resouce\""

/-- query.go: `filterMediaType = strconv.Quote(...)` — note the code wraps the
raw constant with `strconv.Quote`, so the value carries literal surrounding
double quotes and backslash-escaped inner quotes. -/
def filterMediaType : String :=
  strconvQuote rawFilterMediaType

/-- The character class of Go regexp `\w` (ASCII word characters). -/
def isWordChar (c : Char) : Bool :=
  c.isAlphanum || c = '_'

/-- Take the maximal leading run of word characters (the `span` of
`isWordChar`), returning the run and the remainder. -/
def takeWord : List Char → List Char × List Char
  | [] => ([], [])
  | c :: cs =>
    if isWordChar c then
      let p := takeWord cs
      (c :: p.1, p.2)
    else ([], c :: cs)

/-- Exact recognizer for query.go's anchored regex
`qregx = ^\w+\[(\w+)\]$`, returning the capture group. Greedy word runs are
exact here because `[` and `]` are not word characters, so the regex admits no
backtracking. -/
def qregxMatch (k : String) : Option String :=
  match takeWord k.data with
  | ([], _) => none
  | (_ :: _, rest) =>
    match rest with
    | '[' :: rest2 =>
      match takeWord rest2 with
      | ([], _) => none
      | (c :: w2, rest3) =>
        if rest3 = [']'] then some (String.mk (c :: w2)) else none
    | _ => none

/-- query.go `Params`: the container for parsed query parameters. Go maps are
embedded as association lists written through `setKey`. -/
structure Params where
  Includes : List String
  Fields : List (String × List String)
  Filters : List (String × String)
  HasFields : Bool
  HasIncludes : Bool
  HasFilters : Bool
  deriving Repr, DecidableEq

/-- query.go `newParams()`. -/
def newParams : Params :=
  { Includes := [], Fields := [], Filters := [],
    HasFields := false, HasIncludes := false, HasFilters := false }

/-! ## Error responses (queryParamError / api2go encoding) -/

/-- One api2go `Error` object as the middleware populates it: the fields set
by query.go (`Status`, `Title`, `Detail`, `Meta`), the `Meta` map embedded as
an association list. -/
structure APIError where
  status : String
  title : String
  detail : String
  meta : List (String × String)
  deriving Repr, DecidableEq

/-- api2go `HTTPError`'s marshalled payload: the `errors` list. -/
structure HTTPErrorBody where
  Errors : List APIError
  deriving Repr, DecidableEq

/-- A response body: either the JSON-encoded error document (kept in
structured form) or plain text. -/
inductive RespBody where
  | jsonBody (h : HTTPErrorBody)
  | textBody (s : String)
  deriving Repr, DecidableEq

/-- The part of the written response the claims consult: status code, the
`Content-Type` header, and the body. -/
structure Response where
  status : Nat
  contentTypeHeader : String
  body : RespBody
  deriving Repr, DecidableEq

/-- Go `http.Error(w, msg, 500)`: plain-text content type, the message plus a
trailing newline. -/
def httpError (msg : String) : Response :=
  { status := 500
    contentTypeHeader := "text/plain; charset=utf-8"
    body := RespBody.textBody (msg ++ "\n") }

/-- `json.NewEncoder(w).Encode` applied to the error document. Its argument
here is built from strings and a string-valued map only, so Go's JSON encoder
cannot fail on it; the `Except` result keeps the source's error branch. -/
def encodeBody (h : HTTPErrorBody) : Except String HTTPErrorBody :=
  Except.ok h

/-- query.go `queryParamError`: set the JSON-API content type, write the
status, encode a one-element error list with `Status = strconv.Itoa(status)`
and the "query middleware" creator metadata; fall back to `http.Error` with
status 500 when encoding fails. -/
def queryParamError (status : Nat) (title detail : String) : Response :=
  let jsnErr : APIError :=
    { status := toString status
      title := title
      detail := detail
      meta := [("creator", "query middleware")] }
  match encodeBody { Errors := [jsnErr] } with
  | Except.ok h =>
      { status := status
        contentTypeHeader := "application/vnd.api+json"
        body := RespBody.jsonBody h }
  | Except.error e => httpError e

/-- The 406 response of `validateHeader`. -/
def notAcceptable (accept : String) : Response :=
  queryParamError 406 "Accept header is not acceptable"
    ("The given Accept header value " ++ accept ++
      " is incorrect for filter query extension")

/-- The 415 response of `validateHeader`. -/
def unsupportedMedia (ct : String) : Response :=
  queryParamError 415 "Media type is not supported"
    ("The given media type " ++ ct ++
      " in Content-Type header is not supported")

/-- The 400 response for an unmatched filter key. -/
def invalidFilterParam (v : String) : Response :=
  queryParamError 400 "Invalid query parameter"
    ("Unable to match filter query param " ++ v)

/-- The 400 response for an unmatched fields key. -/
def invalidFieldsParam (v : String) : Response :=
  queryParamError 400 "Invalid query parameter"
    ("Unable to match fields query param " ++ v)

/-- query.go `validateHeader`: `none` when the headers pass, `some resp` with
the response it writes when the chain must stop. The Accept check against
`filterMediaType` comes first, then the Accept/Content-Type equality. -/
def validateHeader (accept ct : String) : Option Response :=
  if accept ≠ filterMediaType then some (notAcceptable accept)
  else if accept ≠ ct then some (unsupportedMedia ct)
  else none

/-! ## The middleware loop -/

/-- The `for k, v := range values` loop body of `MiddlewareFn`, threading the
`Params` under construction; `Except.error resp` means the loop returned early
after writing `resp` (the downstream handler is never invoked). The `switch`
cases appear in source order: `filter` prefix (header validation before the
regex match), then `fields` prefix, then `include`, then the ignoring
default. -/
def processKeys (accept ct : String) :
    List (String × String) → Params → Except Response Params
  | [], p => Except.ok p
  | (k, v) :: rest, p =>
    if strStartsWith k "filter" then
      match validateHeader accept ct with
      | some resp => Except.error resp
      | none =>
        match qregxMatch k with
        | some sub =>
            processKeys accept ct rest
              { p with Filters := setKey p.Filters sub v, HasFilters := true }
        | none => Except.error (invalidFilterParam v)
    else if strStartsWith k "fields" then
      match qregxMatch k with
      | some sub =>
          processKeys accept ct rest
            { p with Fields := setKey p.Fields sub (goSplitCommaOpt v),
                     HasFields := true }
      | none => Except.error (invalidFieldsParam v)
    else if k = "include" then
      processKeys accept ct rest
        { p with Includes := goSplitCommaOpt v, HasIncludes := true }
    else
      processKeys accept ct rest p

/-- Outcome of the wrapped handler: an aborted chain with the error response
written, or a pass to the downstream handler carrying `some bundle` when the
code attached the `Params` to the request context and `none` when the original
request went through unmodified. -/
inductive MWResult where
  | aborted (resp : Response)
  | passed (bundle : Option Params)
  deriving Repr, DecidableEq

/-- query.go `MiddlewareFn`: run the loop from `newParams()`; on success
attach the bundle iff any of the three Has flags is set. -/
def MiddlewareFn (accept ct : String) (qs : List (String × String)) : MWResult :=
  match processKeys accept ct qs newParams with
  | Except.error resp => MWResult.aborted resp
  | Except.ok p =>
    if p.HasFilters || p.HasFields || p.HasIncludes then
      MWResult.passed (some p)
    else
      MWResult.passed none

/-- A query key the loop recognizes (everything else falls into the ignoring
default case). -/
def recognized (k : String) : Bool :=
  strStartsWith k "filter" || strStartsWith k "fields" || k = "include"

/-- A fields- or filter-prefixed key that fails the bracket pattern (the
condition of the loop's two 400 branches). -/
def badKey (k : String) : Bool :=
  (strStartsWith k "filter" || strStartsWith k "fields") && (qregxMatch k).isNone

/-- The 400 response blaming a malformed query entry: the filter detail for a
filter-prefixed key, the fields detail otherwise. -/
def malformedResp (kv : String × String) : Response :=
  if strStartsWith kv.1 "filter" then invalidFilterParam kv.2
  else invalidFieldsParam kv.2

/-! ## The day-based cache middleware (package cache)

Time instants are embedded as seconds since the Unix epoch, interpreted in
UTC. `time.Time.Format(http.TimeFormat)` ("Mon, 02 Jan 2006 15:04:05 GMT") is
implemented below from the standard civil-from-days calendar algorithm. -/

/-- Two-digit zero padding for the day, hour, minute and second fields. -/
def pad2 (n : Nat) : String :=
  if n < 10 then "0" ++ toString n else toString n

/-- Weekday abbreviations, indexed from Sunday. -/
def dayNames : List String :=
  ["Sun", "Mon", "Tue", "Wed", "Thu", "Fri", "Sat"]

/-- Month abbreviations, indexed from January. -/
def monthNames : List String :=
  ["Jan", "Feb", "Mar", "Apr", "May", "Jun",
   "Jul", "Aug", "Sep", "Oct", "Nov", "Dec"]

/-- Convert a count of days since 1970-01-01 to the civil date
(year, month 1..12, day-of-month 1..31), using floor division throughout. -/
def civilFromDays (z0 : Int) : Int × Nat × Nat :=
  let z := z0 + 719468
  let era := z.ediv 146097
  let doe := z.emod 146097
  let yoe := (doe - doe.ediv 1460 + doe.ediv 36524 - doe.ediv 146096).ediv 365
  let y := yoe + era * 400
  let doy := doe - (365 * yoe + yoe.ediv 4 - yoe.ediv 100)
  let mp := (5 * doy + 2).ediv 153
  let d := doy - (153 * mp + 2).ediv 5 + 1
  let m := mp + (if mp < 10 then 3 else (-9 : Int))
  (y + (if m ≤ 2 then 1 else 0), m.toNat, d.toNat)

/-- `t.Format(http.TimeFormat)` for an instant `t` in seconds since the Unix
epoch: "Mon, 02 Jan 2006 15:04:05 GMT". -/
def httpTimeFormat (t : Int) : String :=
  let days := t.ediv 86400
  let sod := (t.emod 86400).toNat
  let c := civilFromDays days
  let wd := ((days.emod 7 + 4).emod 7).toNat
  dayNames.getD wd "" ++ ", " ++ pad2 c.2.2 ++ " " ++
    monthNames.getD (c.2.1 - 1) "" ++ " " ++ toString c.1 ++ " " ++
    pad2 (sod / 3600) ++ ":" ++ pad2 (sod % 3600 / 60) ++ ":" ++
    pad2 (sod % 60) ++ " GMT"

/-- cache.go `HTTPCache`: `MaxAge` in seconds, `Expires` an HTTP-format date
string. -/
structure HTTPCache where
  MaxAge : Int
  Expires : String
  deriving Repr, DecidableEq

/-- cache.go day-based `NewHTTPCache(day, t)`:
`duration := time.Hour * 24 * 30 * day` (nanoseconds in Go; its exact value in
seconds is `3600 * 24 * 30 * day`, which is what `duration.Seconds()` yields
for these inputs), `MaxAge := duration.Seconds()`, and
`Expires := t.Format(http.TimeFormat)` — the duration is not added to `t`. -/
def NewHTTPCache (day : Int) (t : Int) : HTTPCache :=
  let durationSeconds : Int := 3600 * 24 * 30 * day
  { MaxAge := durationSeconds, Expires := httpTimeFormat t }

/-- cache.go `Handler`: the two response headers the wrapped handler sets
before forwarding to the next handler unconditionally. -/
def Handler (c : HTTPCache) : List (String × String) :=
  [("Cache-Control", "public, max-age=" ++ toString c.MaxAge),
   ("Expires", c.Expires)]

/-! ## Helper lemmas -/

/-- String concatenation concatenates the character lists. -/
theorem strData_append (s t : String) : (s ++ t).data = s.data ++ t.data := rfl

/-- A list with the character prefix of `"fields"` cannot also have the
character prefix of `"filter"` (they diverge at the third character). -/
theorem fieldsFilterDisjoint (l : List Char)
    (h : isPrefixList ['f', 'i', 'e', 'l', 'd', 's'] l = true) :
    isPrefixList ['f', 'i', 'l', 't', 'e', 'r'] l = false := by
  match l with
  | [] => simp [isPrefixList] at h
  | [c0] => simp [isPrefixList] at h
  | [c0, c1] => simp [isPrefixList] at h
  | c0 :: c1 :: c2 :: rest =>
    simp only [isPrefixList, Bool.and_eq_true, decide_eq_true_eq] at h
    obtain ⟨h0, h1, h2, -⟩ := h
    subst h0; subst h1; subst h2
    rfl

/-- A key with the `fields` prefix does not have the `filter` prefix, so the
loop's `fields` case is reached for it. -/
theorem fields_not_filter (k : String) (h : strStartsWith k "fields" = true) :
    strStartsWith k "filter" = false :=
  fieldsFilterDisjoint k.data h

/-- `takeWord` consumes exactly a run of word characters that is stopped by a
non-word character. -/
theorem takeWord_append (xs : List Char) (hxs : ∀ ch, ch ∈ xs → isWordChar ch = true)
    (y : Char) (hy : isWordChar y = false) (ys : List Char) :
    takeWord (xs ++ y :: ys) = (xs, y :: ys) := by
  induction xs with
  | nil => simp [takeWord, hy]
  | cons c cs ih =>
    have hc : isWordChar c = true := hxs c (List.mem_cons_self _ _)
    have ih2 := ih (fun ch hm => hxs ch (List.mem_cons_of_mem _ hm))
    simp [takeWord, hc, ih2]

/-- The regex `^\w+\[(\w+)\]$` matches `filter[sub]` for a non-empty word
`sub` and captures `sub`. -/
theorem qregxMatch_filter_bracket (sub : String) (hne : sub.data ≠ [])
    (hw : ∀ ch, ch ∈ sub.data → isWordChar ch = true) :
    qregxMatch ("filter[" ++ sub ++ "]") = some sub := by
  obtain ⟨l⟩ := sub
  cases l with
  | nil => exact absurd rfl hne
  | cons c cs =>
    have h1 : takeWord (("filter[" ++ String.mk (c :: cs) ++ "]").data)
        = (['f', 'i', 'l', 't', 'e', 'r'], '[' :: ((c :: cs) ++ [']'])) :=
      takeWord_append ['f', 'i', 'l', 't', 'e', 'r'] (by decide) '[' (by decide) _
    have h2 : takeWord ((c :: cs) ++ [']']) = (c :: cs, [']']) :=
      takeWord_append (c :: cs) hw ']' (by decide) []
    unfold qregxMatch
    rw [h1]
    show (match takeWord ((c :: cs) ++ [']']) with
      | ([], _) => none
      | (c1 :: w2, rest3) =>
        if rest3 = [']'] then some (String.mk (c1 :: w2)) else none)
        = some (String.mk (c :: cs))
    rw [h2]
    simp

/-- A wrong `Accept` header makes `validateHeader` emit the 406 response. -/
theorem validateHeader_wrong_accept {a : String} (c : String)
    (ha : a ≠ filterMediaType) :
    validateHeader a c = some (notAcceptable a) := by
  simp [validateHeader, ha]

/-- A correct `Accept` header with a differing `Content-Type` makes
`validateHeader` emit the 415 response. -/
theorem validateHeader_wrong_ct {a c : String} (ha : a = filterMediaType)
    (hc : a ≠ c) : validateHeader a c = some (unsupportedMedia c) := by
  subst ha
  simp [validateHeader, hc]

/-- With a wrong `Accept` header, any query containing a filter-prefixed key
and no malformed fields-prefixed key makes the loop return the response of
`validateHeader` (the first aborting key is necessarily filter-prefixed). -/
theorem processKeys_header_abort (a c : String) (resp : Response)
    (hv : validateHeader a c = some resp) :
    ∀ (qs : List (String × String)) (p : Params),
      (∀ kv, kv ∈ qs → strStartsWith kv.1 "fields" = true → qregxMatch kv.1 ≠ none) →
      (∃ kv, kv ∈ qs ∧ strStartsWith kv.1 "filter" = true) →
      processKeys a c qs p = Except.error resp := by
  intro qs
  induction qs with
  | nil =>
    intro p _ hex
    obtain ⟨kv, hmem, -⟩ := hex
    cases hmem
  | cons hd tl ih =>
    intro p hfields hex
    obtain ⟨k, v⟩ := hd
    by_cases hf : strStartsWith k "filter" = true
    · simp [processKeys, hf, hv]
    · have hf2 : strStartsWith k "filter" = false := by
        simpa using hf
      have hex2 : ∃ kv, kv ∈ tl ∧ strStartsWith kv.1 "filter" = true := by
        obtain ⟨kv, hmem, hkv⟩ := hex
        rcases List.mem_cons.mp hmem with heq | hmem2
        · rw [heq] at hkv
          exact absurd hkv hf
        · exact ⟨kv, hmem2, hkv⟩
      have hfields2 : ∀ kv, kv ∈ tl → strStartsWith kv.1 "fields" = true →
          qregxMatch kv.1 ≠ none :=
        fun kv hm => hfields kv (List.mem_cons_of_mem _ hm)
      by_cases hfe : strStartsWith k "fields" = true
      · have hq : qregxMatch k ≠ none := hfields (k, v) (List.mem_cons_self _ _) hfe
        obtain ⟨sub, hsub⟩ : ∃ sub, qregxMatch k = some sub := by
          cases hqm : qregxMatch k with
          | none => exact absurd hqm hq
          | some s => exact ⟨s, rfl⟩
        rw [show processKeys a c ((k, v) :: tl) p
            = processKeys a c tl
                { p with Fields := setKey p.Fields sub (goSplitCommaOpt v),
                         HasFields := true } by
          simp [processKeys, hf2, hfe, hsub]]
        exact ih _ hfields2 hex2
      · have hfe2 : strStartsWith k "fields" = false := by
          simpa using hfe
        by_cases hinc : k = "include"
        · subst hinc
          rw [show processKeys a c (("include", v) :: tl) p
              = processKeys a c tl
                  { p with Includes := goSplitCommaOpt v, HasIncludes := true } from rfl]
          exact ih _ hfields2 hex2
        · rw [show processKeys a c ((k, v) :: tl) p = processKeys a c tl p by
            simp [processKeys, hf2, hfe2, hinc]]
          exact ih _ hfields2 hex2

/-- A query with no recognized key leaves the loop state untouched. -/
theorem processKeys_unrecognized (a c : String) :
    ∀ (qs : List (String × String)) (p : Params),
      (∀ kv, kv ∈ qs → recognized kv.1 = false) →
      processKeys a c qs p = Except.ok p := by
  intro qs
  induction qs with
  | nil => intro p _; rfl
  | cons hd tl ih =>
    intro p h
    obtain ⟨k, v⟩ := hd
    have hk := h (k, v) (List.mem_cons_self _ _)
    simp only [recognized, Bool.or_eq_false_iff, decide_eq_false_iff_not] at hk
    rw [show processKeys a c ((k, v) :: tl) p = processKeys a c tl p by
      simp [processKeys, hk.1.1, hk.1.2, hk.2]]
    exact ih _ (fun kv hm => h kv (List.mem_cons_of_mem _ hm))

/-- When the headers pass validation wherever a filter-prefixed key occurs,
a query containing a malformed fields- or filter-prefixed key makes the loop
abort with the 400 response blaming some such key. -/
theorem processKeys_malformed_abort (a c : String) :
    ∀ (qs : List (String × String)) (p : Params),
      (∀ kv, kv ∈ qs → strStartsWith kv.1 "filter" = true →
          validateHeader a c = none) →
      (∃ kv, kv ∈ qs ∧ badKey kv.1 = true) →
      ∃ kv, kv ∈ qs ∧ badKey kv.1 = true ∧
        processKeys a c qs p = Except.error (malformedResp kv) := by
  intro qs
  induction qs with
  | nil =>
    intro p _ hex
    obtain ⟨kv, hmem, -⟩ := hex
    cases hmem
  | cons hd tl ih =>
    intro p hvh hex
    obtain ⟨k, v⟩ := hd
    by_cases hf : strStartsWith k "filter" = true
    · have hvok := hvh (k, v) (List.mem_cons_self _ _) hf
      cases hq : qregxMatch k with
      | none =>
        refine ⟨(k, v), List.mem_cons_self _ _, by simp [badKey, hf, hq], ?_⟩
        simp [processKeys, hf, hvok, hq, malformedResp]
      | some sub =>
        have hex2 : ∃ kv, kv ∈ tl ∧ badKey kv.1 = true := by
          obtain ⟨kv, hmem, hbad⟩ := hex
          rcases List.mem_cons.mp hmem with heq | hmem2
          · rw [heq] at hbad
            simp [badKey, hq] at hbad
          · exact ⟨kv, hmem2, hbad⟩
        obtain ⟨kv, hmem, hbad, hrun⟩ :=
          ih _ (fun kv hm => hvh kv (List.mem_cons_of_mem _ hm)) hex2
        refine ⟨kv, List.mem_cons_of_mem _ hmem, hbad, ?_⟩
        rw [show processKeys a c ((k, v) :: tl) p
            = processKeys a c tl
                { p with Filters := setKey p.Filters sub v, HasFilters := true } by
          simp [processKeys, hf, hvok, hq]]
        exact hrun
    · have hf2 : strStartsWith k "filter" = false := by simpa using hf
      by_cases hfe : strStartsWith k "fields" = true
      · cases hq : qregxMatch k with
        | none =>
          refine ⟨(k, v), List.mem_cons_self _ _, by simp [badKey, hfe, hq], ?_⟩
          simp [processKeys, hf2, hfe, hq, malformedResp]
        | some sub =>
          have hex2 : ∃ kv, kv ∈ tl ∧ badKey kv.1 = true := by
            obtain ⟨kv, hmem, hbad⟩ := hex
            rcases List.mem_cons.mp hmem with heq | hmem2
            · rw [heq] at hbad
              simp [badKey, hq] at hbad
            · exact ⟨kv, hmem2, hbad⟩
          obtain ⟨kv, hmem, hbad, hrun⟩ :=
            ih _ (fun kv hm => hvh kv (List.mem_cons_of_mem _ hm)) hex2
          refine ⟨kv, List.mem_cons_of_mem _ hmem, hbad, ?_⟩
          rw [show processKeys a c ((k, v) :: tl) p
              = processKeys a c tl
                  { p with Fields := setKey p.Fields sub (goSplitCommaOpt v),
                           HasFields := true } by
            simp [processKeys, hf2, hfe, hq]]
          exact hrun
      · have hfe2 : strStartsWith k "fields" = false := by simpa using hfe
        have hnotbad : badKey k = false := by
          simp [badKey, hf2, hfe2]
        have hex2 : ∃ kv, kv ∈ tl ∧ badKey kv.1 = true := by
          obtain ⟨kv, hmem, hbad⟩ := hex
          rcases List.mem_cons.mp hmem with heq | hmem2
          · rw [heq] at hbad
            rw [hnotbad] at hbad
            cases hbad
          · exact ⟨kv, hmem2, hbad⟩
        by_cases hinc : k = "include"
        · subst hinc
          obtain ⟨kv, hmem, hbad, hrun⟩ :=
            ih { p with Includes := goSplitCommaOpt v, HasIncludes := true }
              (fun kv hm => hvh kv (List.mem_cons_of_mem _ hm)) hex2
          refine ⟨kv, List.mem_cons_of_mem _ hmem, hbad, ?_⟩
          rw [show processKeys a c (("include", v) :: tl) p
              = processKeys a c tl
                  { p with Includes := goSplitCommaOpt v, HasIncludes := true } from rfl]
          exact hrun
        · obtain ⟨kv, hmem, hbad, hrun⟩ :=
            ih p (fun kv hm => hvh kv (List.mem_cons_of_mem _ hm)) hex2
          refine ⟨kv, List.mem_cons_of_mem _ hmem, hbad, ?_⟩
          rw [show processKeys a c ((k, v) :: tl) p = processKeys a c tl p by
            simp [processKeys, hf2, hfe2, hinc]]
          exact hrun

/-- Every early return of the loop carries the JSON-API content type. -/
theorem processKeys_error_ct (a c : String) :
    ∀ (qs : List (String × String)) (p : Params) (resp : Response),
      processKeys a c qs p = Except.error resp →
      resp.contentTypeHeader = "application/vnd.api+json" := by
  intro qs
  induction qs with
  | nil =>
    intro p resp h
    simp [processKeys] at h
  | cons hd tl ih =>
    intro p resp h
    obtain ⟨k, v⟩ := hd
    by_cases hf : strStartsWith k "filter" = true
    · rw [show processKeys a c ((k, v) :: tl) p
          = (match validateHeader a c with
             | some resp1 => Except.error resp1
             | none =>
               match qregxMatch k with
               | some sub =>
                   processKeys a c tl
                     { p with Filters := setKey p.Filters sub v, HasFilters := true }
               | none => Except.error (invalidFilterParam v)) by
        simp [processKeys, hf]] at h
      cases hv : validateHeader a c with
      | some r =>
        rw [hv] at h
        cases h
        revert hv
        unfold validateHeader notAcceptable unsupportedMedia queryParamError
        split
        · intro hv
          cases hv
          rfl
        · split
          · intro hv
            cases hv
            rfl
          · intro hv
            cases hv
      | none =>
        rw [hv] at h
        cases hq : qregxMatch k with
        | some sub =>
          rw [hq] at h
          exact ih _ _ h
        | none =>
          rw [hq] at h
          cases h
          rfl
    · have hf2 : strStartsWith k "filter" = false := by simpa using hf
      by_cases hfe : strStartsWith k "fields" = true
      · cases hq : qregxMatch k with
        | some sub =>
          rw [show processKeys a c ((k, v) :: tl) p
              = processKeys a c tl
                  { p with Fields := setKey p.Fields sub (goSplitCommaOpt v),
                           HasFields := true } by
            simp [processKeys, hf2, hfe, hq]] at h
          exact ih _ _ h
        | none =>
          rw [show processKeys a c ((k, v) :: tl) p
              = Except.error (invalidFieldsParam v) by
            simp [processKeys, hf2, hfe, hq]] at h
          cases h
          rfl
      · have hfe2 : strStartsWith k "fields" = false := by simpa using hfe
        by_cases hinc : k = "include"
        · subst hinc
          rw [show processKeys a c (("include", v) :: tl) p
              = processKeys a c tl
                  { p with Includes := goSplitCommaOpt v, HasIncludes := true } from rfl] at h
          exact ih _ _ h
        · rw [show processKeys a c ((k, v) :: tl) p = processKeys a c tl p by
            simp [processKeys, hf2, hfe2, hinc]] at h
          exact ih _ _ h

/-! ## The claims -/

/-- Claim C1 (code bug): the claim says the 406 check compares the `Accept`
header against the constant
`application/vnd.api+json; supported-ext="dictybase/filtering-resouce"` with
no additional surrounding quotation marks, and that a request whose `Accept`
header equals exactly that constant passes the check. The code instead wraps
the constant with `strconv.Quote`, so the compared value carries literal
surrounding double quotes and backslash-escaped inner quotes, and a request
sending exactly the documented constant (query `?filter[name]=foo`, `Accept`
and `Content-Type` both the raw constant) is rejected with 406. -/
theorem claimC1_quote_bug :
    filterMediaType ≠ rawFilterMediaType ∧
    filterMediaType =
      "\"application/vnd.api+json; supported-ext=\\\"dictybase/filtering-resouce\\\"\"" ∧
    MiddlewareFn rawFilterMediaType rawFilterMediaType [("filter[name]", "foo")] =
      MWResult.aborted (notAcceptable rawFilterMediaType) ∧
    (notAcceptable rawFilterMediaType).status = 406 :=
  ⟨by decide, by decide, rfl, rfl⟩

/-- Claim C2, counterexample: for the day-based cache constructed with a
30-day duration (`NewHTTPCache 1 t`, since the constructor multiplies its
`day` argument by 30 days) and reference time T = the Unix epoch, the code
sets `Expires` to T itself ("Thu, 01 Jan 1970"), not to T plus 30 days
("Sat, 31 Jan 1970") as the claim states. -/
theorem claimC2_cex :
    Handler (NewHTTPCache 1 0) =
      [("Cache-Control", "public, max-age=2592000"),
       ("Expires", "Thu, 01 Jan 1970 00:00:00 GMT")] ∧
    httpTimeFormat (0 + 2592000) = "Sat, 31 Jan 1970 00:00:00 GMT" ∧
    ("Thu, 01 Jan 1970 00:00:00 GMT" : String) ≠ "Sat, 31 Jan 1970 00:00:00 GMT" :=
  ⟨by decide, by decide, by decide⟩

/-- Claim C2 as amended: for the day-based cache middleware constructed with
a 30-day duration and a fixed reference time T, the wrapped handler sets
`Cache-Control` to `public, max-age=N` where N = 2592000 is the exact number
of seconds in 30 days, and sets `Expires` to T itself (not T plus 30 days)
formatted as an HTTP date. -/
theorem claimC2_amended : ∀ t : Int,
    Handler (NewHTTPCache 1 t) =
      [("Cache-Control", "public, max-age=" ++ toString (2592000 : Int)),
       ("Expires", httpTimeFormat t)] ∧
    (2592000 : Int) = 3600 * 24 * 30 :=
  fun _ => ⟨rfl, by decide⟩

/-- Claim C3 as amended: for every request whose query string contains a
filter-prefixed key and no malformed fields-prefixed key, a wrong `Accept`
header yields the 406 response and a correct `Accept` with a differing
`Content-Type` yields the 415 response; in both cases the chain aborts and
the downstream handler is not invoked. (Restricting to queries without a
malformed fields-prefixed key is forced: such a key visited first yields 400
instead, the iteration order over query keys being unspecified.) -/
theorem claimC3_header_errors : ∀ (a c : String) (qs : List (String × String)),
    (∃ kv, kv ∈ qs ∧ strStartsWith kv.1 "filter" = true) →
    (∀ kv, kv ∈ qs → strStartsWith kv.1 "fields" = true → qregxMatch kv.1 ≠ none) →
    ((a ≠ filterMediaType →
        MiddlewareFn a c qs = MWResult.aborted (notAcceptable a) ∧
        (notAcceptable a).status = 406) ∧
     (a = filterMediaType → c ≠ a →
        MiddlewareFn a c qs = MWResult.aborted (unsupportedMedia c) ∧
        (unsupportedMedia c).status = 415)) := by
  intro a c qs hex hfields
  constructor
  · intro ha
    have h := processKeys_header_abort a c _ (validateHeader_wrong_accept c ha)
      qs newParams hfields hex
    exact ⟨by simp [MiddlewareFn, h], rfl⟩
  · intro ha hc
    have h := processKeys_header_abort a c _
      (validateHeader_wrong_ct ha (fun he => hc he.symm)) qs newParams hfields hex
    exact ⟨by simp [MiddlewareFn, h], rfl⟩

/-- Witness for C3: the concrete request `?filter[name]=foo` with empty
`Accept` header is answered 406. -/
theorem claimC3_witness :
    MiddlewareFn "" "" [("filter[name]", "foo")] = MWResult.aborted (notAcceptable "") ∧
    (notAcceptable "").status = 406 :=
  (claimC3_header_errors "" "" [("filter[name]", "foo")]
    ⟨("filter[name]", "foo"), by decide, by decide⟩ (by decide)).1 (by decide)

/-- Counterexample to C3 as stated: the query
`?fieldsX=t&filter[name]=foo` contains a filter-prefixed key and the `Accept`
header is wrong, yet (with the malformed fields key visited first) the
middleware responds 400, not 406. -/
theorem claimC3_cex :
    strStartsWith "filter[name]" "filter" = true ∧
    ("" : String) ≠ filterMediaType ∧
    MiddlewareFn "" "" [("fieldsX", "t"), ("filter[name]", "foo")] =
      MWResult.aborted (invalidFieldsParam "t") ∧
    (invalidFieldsParam "t").status = 400 ∧
    (invalidFieldsParam "t").status ≠ 406 :=
  ⟨by decide, by decide, rfl, rfl, by decide⟩

/-- Claim C4: a request with query `?filter[name]=foo` whose `Accept` and
`Content-Type` both equal the required filtering media type yields a bundle
with `Filters["name"] = "foo"` and `HasFilters = true`, attached to the
context (`some p`), with the downstream handler invoked on the decorated
request. -/
theorem claimC4_filter_pass :
    ∃ p : Params,
      MiddlewareFn filterMediaType filterMediaType [("filter[name]", "foo")] =
        MWResult.passed (some p) ∧
      getKey p.Filters "name" = some "foo" ∧ p.HasFilters = true :=
  ⟨_, rfl, rfl, rfl⟩

/-- Claim C5: a `fields`- or `filter`-prefixed key that fails the bracket
pattern — header validation permitting, in the filter case — is answered
with status 400, title "Invalid query parameter" and a detail naming the
parameter's value, and the downstream handler is not invoked. -/
theorem claimC5_malformed_key :
    (∀ (a c : String) (qs : List (String × String)),
        (∀ kv, kv ∈ qs → strStartsWith kv.1 "filter" = true →
            a = filterMediaType ∧ c = filterMediaType) →
        (∃ kv, kv ∈ qs ∧ badKey kv.1 = true) →
        ∃ kv, kv ∈ qs ∧ badKey kv.1 = true ∧
          MiddlewareFn a c qs = MWResult.aborted (malformedResp kv) ∧
          (malformedResp kv).status = 400) ∧
    (∀ (k v a c : String), qregxMatch k = none →
        ((strStartsWith k "filter" = true → a = filterMediaType →
            c = filterMediaType →
            MiddlewareFn a c [(k, v)] = MWResult.aborted (invalidFilterParam v)) ∧
         (strStartsWith k "fields" = true →
            MiddlewareFn a c [(k, v)] = MWResult.aborted (invalidFieldsParam v)) ∧
         (invalidFilterParam v).status = 400 ∧
         (invalidFieldsParam v).body = RespBody.jsonBody
           { Errors := [{ status := "400", title := "Invalid query parameter",
                          detail := "Unable to match fields query param " ++ v,
                          meta := [("creator", "query middleware")] }] } ∧
         (invalidFilterParam v).body = RespBody.jsonBody
           { Errors := [{ status := "400", title := "Invalid query parameter",
                          detail := "Unable to match filter query param " ++ v,
                          meta := [("creator", "query middleware")] }] })) := by
  constructor
  · intro a c qs hh hex
    have hvh : ∀ kv, kv ∈ qs → strStartsWith kv.1 "filter" = true →
        validateHeader a c = none := by
      intro kv hm hf
      obtain ⟨ha, hc⟩ := hh kv hm hf
      subst ha
      subst hc
      rfl
    obtain ⟨kv, hmem, hbad, hrun⟩ :=
      processKeys_malformed_abort a c qs newParams hvh hex
    refine ⟨kv, hmem, hbad, by simp [MiddlewareFn, hrun], ?_⟩
    unfold malformedResp
    split
    · rfl
    · rfl
  · intro k v a c hq
    refine ⟨?_, ?_, rfl, rfl, rfl⟩
    · intro hf ha hc
      subst ha
      subst hc
      simp [MiddlewareFn, processKeys, hf, validateHeader, hq]
    · intro hfe
      have hf2 := fields_not_filter k hfe
      simp [MiddlewareFn, processKeys, hf2, hfe, hq]

/-- Witness for C5: the bracketless key `fieldsX` is answered with the 400
response for value "title". -/
theorem claimC5_witness :
    MiddlewareFn "" "" [("fieldsX", "title")] =
      MWResult.aborted (invalidFieldsParam "title") :=
  (claimC5_malformed_key.2 "fieldsX" "title" "" "" (by decide)).2.1 (by decide)

/-- Claim C6: every error response of the query middleware has the JSON-API
content type `application/vnd.api+json` whatever the request's headers, and
its body is a list with exactly one error object whose `status` is the string
form of the HTTP status code, with the title, the detail, and a meta field
naming the creator "query middleware"; when encoding the body fails the
fallback is Go's `http.Error`, a plain-text 500 response carrying the
encoding error's message. -/
theorem claimC6_error_shape :
    (∀ (status0 : Nat) (title0 detail0 : String),
        queryParamError status0 title0 detail0 =
          { status := status0
            contentTypeHeader := "application/vnd.api+json"
            body := RespBody.jsonBody
              { Errors := [{ status := toString status0, title := title0,
                             detail := detail0,
                             meta := [("creator", "query middleware")] }] } }) ∧
    (∀ msg : String,
        httpError msg =
          { status := 500, contentTypeHeader := "text/plain; charset=utf-8",
            body := RespBody.textBody (msg ++ "\n") }) ∧
    (∀ (a c : String) (qs : List (String × String)) (resp : Response),
        processKeys a c qs newParams = Except.error resp →
        resp.contentTypeHeader = "application/vnd.api+json") :=
  ⟨fun _ _ _ => rfl, fun _ => rfl,
   fun a c qs resp h => processKeys_error_ct a c qs newParams resp h⟩

/-- Witness for C6: the 400 response for the malformed key `fieldsX` carries
the JSON-API content type. -/
theorem claimC6_witness :
    (invalidFieldsParam "t").contentTypeHeader = "application/vnd.api+json" :=
  claimC6_error_shape.2.2 "" "" [("fieldsX", "t")] (invalidFieldsParam "t") rfl

/-- Claim C7: when parsing completes without error the bundle is attached if
and only if one of the three Has flags is true, and a query with no
recognized key reaches the downstream handler as the original request with
no bundle attached. -/
theorem claimC7_attach_iff :
    (∀ (a c : String) (qs : List (String × String)) (p : Params),
        processKeys a c qs newParams = Except.ok p →
        (((p.HasFilters || p.HasFields || p.HasIncludes) = true →
            MiddlewareFn a c qs = MWResult.passed (some p)) ∧
         ((p.HasFilters || p.HasFields || p.HasIncludes) = false →
            MiddlewareFn a c qs = MWResult.passed none))) ∧
    (∀ (a c : String) (qs : List (String × String)),
        (∀ kv, kv ∈ qs → recognized kv.1 = false) →
        MiddlewareFn a c qs = MWResult.passed none) := by
  constructor
  · intro a c qs p h
    constructor
    · intro hflag
      simp [MiddlewareFn, h, hflag]
    · intro hflag
      simp [MiddlewareFn, h, hflag]
  · intro a c qs h
    have h2 := processKeys_unrecognized a c qs newParams h
    unfold MiddlewareFn
    rw [h2]
    rfl

/-- Witness for C7: a query of only unrecognized keys passes the original
request through with no bundle. -/
theorem claimC7_witness :
    MiddlewareFn "x" "y" [("foo", "bar"), ("page", "3")] = MWResult.passed none :=
  claimC7_attach_iff.2 "x" "y" [("foo", "bar"), ("page", "3")] (by decide)

/-- Claim C8: header validation precedes the bracket-pattern check for
filter-prefixed keys — a request whose only recognized key is filter-prefixed
but malformed, sent with a wrong `Accept` header, receives the 406
header-validation error, not the 400 pattern-mismatch error. -/
theorem claimC8_header_first : ∀ (k v a c : String),
    strStartsWith k "filter" = true →
    qregxMatch k = none →
    a ≠ filterMediaType →
    MiddlewareFn a c [(k, v)] = MWResult.aborted (notAcceptable a) ∧
    (notAcceptable a).status = 406 ∧
    (notAcceptable a).status ≠ (invalidFilterParam v).status := by
  intro k v a c hf hq ha
  refine ⟨?_, rfl, show (406 : Nat) ≠ 400 by decide⟩
  simp [MiddlewareFn, processKeys, hf, validateHeader_wrong_accept c ha]

/-- Witness for C8: the malformed filter key `filterbad` with an empty
`Accept` header receives the 406 response. -/
theorem claimC8_witness :
    MiddlewareFn "" "" [("filterbad", "x")] = MWResult.aborted (notAcceptable "") :=
  (claimC8_header_first "filterbad" "x" "" "" (by decide) (by decide) (by decide)).1

/-- Claim C9: the query `?fields[articles]=title,body` with no filter keys
yields `Fields["articles"] = ["title", "body"]` and `HasFields = true`,
whatever the `Accept` and `Content-Type` headers contain (no header
validation is performed). -/
theorem claimC9_fields_no_headers : ∀ a c : String,
    ∃ p : Params,
      MiddlewareFn a c [("fields[articles]", "title,body")] =
        MWResult.passed (some p) ∧
      getKey p.Fields "articles" = some ["title", "body"] ∧
      p.HasFields = true ∧ p.HasFilters = false :=
  fun _ _ => ⟨_, rfl, rfl, rfl, rfl⟩

/-- Claim C10: filter values are stored verbatim, never comma-split — for any
well-formed `filter[sub]=v` the bundle maps `sub` to the single string `v`
(commas included) — while `include` and `fields` values containing commas are
split into lists. -/
theorem claimC10_verbatim_filter :
    (∀ (sub v : String), sub.data ≠ [] →
        (∀ ch, ch ∈ sub.data → isWordChar ch = true) →
        MiddlewareFn filterMediaType filterMediaType
            [("filter[" ++ sub ++ "]", v)] =
          MWResult.passed (some
            { Includes := [], Fields := [], Filters := [(sub, v)],
              HasFields := false, HasIncludes := false, HasFilters := true }) ∧
        getKey [(sub, v)] sub = some v) ∧
    (∀ a c : String,
        ∃ p : Params, MiddlewareFn a c [("include", "a,b")] =
            MWResult.passed (some p) ∧ p.Includes = ["a", "b"]) ∧
    (∀ a c : String,
        ∃ p : Params, MiddlewareFn a c [("fields[x]", "a,b")] =
            MWResult.passed (some p) ∧ getKey p.Fields "x" = some ["a", "b"]) := by
  refine ⟨?_, fun a c => ⟨_, rfl, rfl⟩, fun a c => ⟨_, rfl, rfl⟩⟩
  intro sub v hne hw
  have hpref : strStartsWith ("filter[" ++ sub ++ "]") "filter" = true := rfl
  have hmatch := qregxMatch_filter_bracket sub hne hw
  constructor
  · simp [MiddlewareFn, processKeys, hpref, hmatch, validateHeader, setKey, newParams]
  · simp [getKey]

/-- Witness for C10: `?filter[name]=a,b` stores the comma-carrying value
verbatim. -/
theorem claimC10_witness :
    MiddlewareFn filterMediaType filterMediaType [("filter[" ++ "name" ++ "]", "a,b")] =
      MWResult.passed (some
        { Includes := [], Fields := [], Filters := [("name", "a,b")],
          HasFields := false, HasIncludes := false, HasFilters := true }) :=
  (claimC10_verbatim_filter.1 "name" "a,b" (by decide) (by decide)).1

end GoMW
